import Mathlib

/-!
Verification of the RBAC decision logic and course/chapter CRUD services of the
softlearn backend, as a shallow embedding.  The database session is modelled as
an explicit record of table rows (lists), queries as list filters, and fallible
service endpoints as `Except HTTPError` computations.  Timestamps produced by
`datetime.now()` are passed in as an explicit `now : String` argument.
-/

deriving instance DecidableEq for Except

namespace SoftLearn

/-- An HTTP error as raised by `fastapi.HTTPException`: a status code and a detail
message. -/
structure HTTPError where
  status : Nat
  detail : String
deriving Repr, DecidableEq

/-- The four actions of the permission matrix (`Literal["read", "update", "delete",
"create"]` in `src/security/rbac/rbac.py`). -/
inductive Action where
  | create
  | read
  | update
  | delete
deriving Repr, DecidableEq

/-- `ResourceAuthorshipEnum` from `src/db/resource_authors.py`. -/
inductive ResourceAuthorshipEnum where
  | CREATOR
  | CONTRIBUTOR
  | MAINTAINER
  | REPORTER
deriving Repr, DecidableEq

/-- `ResourceAuthorshipStatusEnum` from `src/db/resource_authors.py`. -/
inductive ResourceAuthorshipStatusEnum where
  | ACTIVE
  | PENDING
  | INACTIVE
deriving Repr, DecidableEq

/-- `ResourceAuthor` row from `src/db/resource_authors.py`. -/
structure ResourceAuthor where
  id : Nat
  resource_uuid : String
  user_id : Nat
  authorship : ResourceAuthorshipEnum
  authorship_status : ResourceAuthorshipStatusEnum
  creation_date : String
  update_date : String
deriving Repr, DecidableEq

/-- `Course` row from `src/db/courses/courses.py` (`CourseBase` fields plus the
table columns). -/
structure Course where
  id : Nat
  org_id : Nat
  name : String
  description : Option String
  about : Option String
  learnings : Option String
  tags : Option String
  thumbnail_image : Option String
  public : Bool
  open_to_contributors : Bool
  course_uuid : String
  creation_date : String
  update_date : String
deriving Repr, DecidableEq

/-- `CourseUpdate` from `src/db/courses/courses.py`: `name` is a required `str`,
every other field is `Optional` with `None` meaning "not provided". -/
structure CourseUpdate where
  name : String
  description : Option String
  about : Option String
  learnings : Option String
  tags : Option String
  thumbnail_image : Option String
  public : Option Bool
  open_to_contributors : Option Bool
deriving Repr, DecidableEq

/-- Modelled from the spec: `src/db/roles.py` is not under `src/`.  Per the spec a
role carries, for each resource type and each of the four actions, a boolean
permission entry.  This is one row of that matrix (one resource type). -/
structure Permission where
  action_create : Bool
  action_read : Bool
  action_update : Bool
  action_delete : Bool
deriving Repr, DecidableEq

/-- Modelled from the spec: the permission matrix of a role, keyed by resource
type (course, chapter, activity, collection), as accessed dynamically by
`getattr(rights, element_type)` in `src/security/rbac/rbac.py`. -/
structure Rights where
  courses : Permission
  chapters : Permission
  activities : Permission
  collections : Permission
deriving Repr, DecidableEq

/-- Modelled from the spec: `Role` row (`src/db/roles.py` is not under `src/`).
A role has an optional organization scope (`None` = global/standard role) and an
optional permission matrix (`if role.rights:` in the code guards against a missing
matrix). -/
structure Role where
  id : Nat
  org_id : Option Nat
  rights : Option Rights
deriving Repr, DecidableEq

/-- Modelled from the spec: `UserOrganization` link row (`src/db/user_organizations.py`
is not under `src/`): membership plus role assignment, with the fields used by the
queries in `src/security/rbac/rbac.py` and `src/services/orgs/orgs.py`. -/
structure UserOrganization where
  user_id : Nat
  org_id : Nat
  role_id : Nat
deriving Repr, DecidableEq

/-- Modelled from the spec: `Collection` row (`src/db/collections.py` is not under
`src/`): a resource with a UUID and a public flag, as queried by
`authorization_verify_if_element_is_public`. -/
structure Collection where
  id : Nat
  collection_uuid : String
  public : Bool
deriving Repr, DecidableEq

/-- Modelled from the spec: `CourseChapter` order-link row
(`src/db/courses/course_chapters.py` is not under `src/`); its fields are exactly
those populated in `src/services/courses/chapters.py`: course, chapter,
organization, an integer order, and timestamps. -/
structure CourseChapter where
  course_id : Nat
  chapter_id : Nat
  org_id : Nat
  order : Nat
  creation_date : String
  update_date : String
deriving Repr, DecidableEq

/-- Modelled from the spec: `Chapter` row (`src/db/courses/chapters.py` is not
under `src/`): a content entity with a name, optional description, and the
bookkeeping columns set in `create_chapter`. -/
structure Chapter where
  id : Nat
  org_id : Nat
  course_id : Nat
  chapter_uuid : String
  name : String
  description : Option String
  creation_date : String
  update_date : String
deriving Repr, DecidableEq

/-- Modelled from the spec: `ChapterUpdate` (`src/db/courses/chapters.py` is not
under `src/`): the partial-update payload, every field optional with `None`
meaning "not provided". -/
structure ChapterUpdate where
  name : Option String
  description : Option String
deriving Repr, DecidableEq

/-- The transactional database session, modelled as the rows of the tables the
verified services touch. -/
structure DB where
  courses : List Course
  collections : List Collection
  resource_authors : List ResourceAuthor
  roles : List Role
  user_organizations : List UserOrganization
  course_chapters : List CourseChapter
  chapters : List Chapter
deriving Repr, DecidableEq

/-! ## RBAC (`src/security/rbac/rbac.py`) -/

/-- The 403 detail raised by `authorization_verify_if_element_is_public`. -/
def publicDeniedErr : HTTPError :=
  ⟨403, "User rights : You don't have the right to perform this action"⟩

/-- The 403 detail raised by `authorization_verify_based_on_roles_and_authorship`. -/
def rbacDeniedErr : HTTPError :=
  ⟨403, "User rights (roles & authorship) : You don't have the right to perform this action"⟩

/-- The 403 detail raised by `authorization_verify_if_user_is_anon`. -/
def anonErr : HTTPError :=
  ⟨403, "You should be logged in to perform this action"⟩

/-- `str.startswith`, on the character sequences of the strings. -/
def strStartsWith (s p : String) : Bool :=
  p.data.isPrefixOf s.data

/-- Modelled from the spec: `check_element_type` (`src/security/rbac/utils.py` is
not under `src/`).  The spec derives the resource type from the element
identifier; the services generate identifiers with `course_`/`chapter_`/
`activity_`/`collection_` markers, and an unrecognised identifier is rejected
with an HTTP error. -/
def check_element_type (element_uuid : String) : Except HTTPError String :=
  if strStartsWith element_uuid "course_" then .ok "courses"
  else if strStartsWith element_uuid "chapter_" then .ok "chapters"
  else if strStartsWith element_uuid "activity_" then .ok "activities"
  else if strStartsWith element_uuid "collection_" then .ok "collections"
  else .error ⟨409, "Issue verifying the nature of the element"⟩

/-- `authorization_verify_if_element_is_public` (rbac.py, lines 14-52): for a
course (resp. collection) element and a `read` action, succeed iff a row with
`public == True` and the given UUID exists; otherwise raise 403. -/
def authorization_verify_if_element_is_public (element_uuid : String) (action : Action)
    (db : DB) : Except HTTPError Bool :=
  match check_element_type element_uuid with
  | .error e => .error e
  | .ok element_nature =>
    if element_nature == "courses" && action == .read then
      match (db.courses.filter fun c => c.public && c.course_uuid == element_uuid).head? with
      | some _ => .ok true
      | none => .error publicDeniedErr
    else if element_nature == "collections" && action == .read then
      match (db.collections.filter fun c => c.public && c.collection_uuid == element_uuid).head? with
      | some _ => .ok true
      | none => .error publicDeniedErr
    else
      .error publicDeniedErr

/-- `authorization_verify_if_user_is_author` (rbac.py, lines 56-86).  `create` is
always allowed; otherwise the code fetches the *first* `ResourceAuthor` row whose
`resource_uuid` matches (the query does not filter by user) and compares its
`user_id`, authorship kind and status. -/
def authorization_verify_if_user_is_author (user_id : Nat) (action : Action)
    (element_uuid : String) (db : DB) : Bool :=
  match action with
  | .create => true
  | _ =>
    match (db.resource_authors.filter fun ra => ra.resource_uuid == element_uuid).head? with
    | some resource_author =>
      if resource_author.user_id == user_id then
        (resource_author.authorship == .CREATOR ||
            resource_author.authorship == .MAINTAINER ||
            resource_author.authorship == .CONTRIBUTOR) &&
          resource_author.authorship_status == .ACTIVE
      else false
    | none => false

/-- The role query of rbac.py lines 100-107: `select(Role).join(UserOrganization)`
joins on the `UserOrganization.role_id` foreign key, keeps roles whose scope
matches the membership's organization or is global (`Role.org_id == null`), and
filters memberships to the given user. -/
def rolesQuery (db : DB) (user_id : Nat) : List Role :=
  db.roles.filter fun role =>
    db.user_organizations.any fun uo =>
      uo.role_id == role.id &&
        (role.org_id == some uo.org_id || role.org_id == none) &&
        uo.user_id == user_id

/-- `getattr(rights, element_type, None)` on the permission matrix. -/
def getattr_rights (rights : Rights) (element_type : String) : Option Permission :=
  if element_type == "courses" then some rights.courses
  else if element_type == "chapters" then some rights.chapters
  else if element_type == "activities" then some rights.activities
  else if element_type == "collections" then some rights.collections
  else none

/-- `getattr(element_rights, f"action_{action}", False)`. -/
def getattr_action (p : Permission) (action : Action) : Bool :=
  match action with
  | .create => p.action_create
  | .read => p.action_read
  | .update => p.action_update
  | .delete => p.action_delete

/-- Whether a single role grants the action on the element type (the body of the
loop in rbac.py lines 110-116). -/
def role_grants (role : Role) (element_type : String) (action : Action) : Bool :=
  match role.rights with
  | some rights =>
    match getattr_rights rights element_type with
    | some p => getattr_action p action
    | none => false
  | none => false

/-- `authorization_verify_based_on_roles` (rbac.py, lines 90-119): resolve the
element type, fetch the user's roles, and return whether any of them grants the
action. -/
def authorization_verify_based_on_roles (user_id : Nat) (action : Action)
    (element_uuid : String) (db : DB) : Except HTTPError Bool :=
  match check_element_type element_uuid with
  | .error e => .error e
  | .ok element_type =>
    .ok ((rolesQuery db user_id).any fun role => role_grants role element_type action)

/-- `authorization_verify_based_on_roles_and_authorship` (rbac.py, lines 151-172):
allow iff the author check or the role check succeeds, otherwise raise 403.  The
role check is evaluated unconditionally, so its errors propagate even when the
author check succeeded. -/
def authorization_verify_based_on_roles_and_authorship (user_id : Nat) (action : Action)
    (element_uuid : String) (db : DB) : Except HTTPError Bool :=
  let isAuthor := authorization_verify_if_user_is_author user_id action element_uuid db
  match authorization_verify_based_on_roles user_id action element_uuid db with
  | .error e => .error e
  | .ok isRole =>
    if isAuthor || isRole then .ok true
    else .error rbacDeniedErr

/-- `authorization_verify_if_user_is_anon` (rbac.py, lines 175-181). -/
def authorization_verify_if_user_is_anon (user_id : Nat) : Except HTTPError Unit :=
  if user_id == 0 then .error anonErr else .ok ()

/-- `rbac_check` (`src/services/courses/courses.py`, lines 755-784; the copies in
`chapters.py` and `activities.py` are identical): for `read`, anonymous subjects
go through the public check and authenticated ones through roles-and-authorship;
for every other action, anonymous subjects are rejected first and the
roles-and-authorship check then runs.  Callers use only success/failure, so the
result is `Unit`. -/
def rbac_check (element_uuid : String) (current_user_id : Nat) (action : Action)
    (db : DB) : Except HTTPError Unit :=
  if action == .read then
    if current_user_id == 0 then
      (authorization_verify_if_element_is_public element_uuid action db).map fun _ => ()
    else
      (authorization_verify_based_on_roles_and_authorship current_user_id action element_uuid db).map
        fun _ => ()
  else
    match authorization_verify_if_user_is_anon current_user_id with
    | .error e => .error e
    | .ok _ =>
      (authorization_verify_based_on_roles_and_authorship current_user_id action element_uuid db).map
        fun _ => ()

/-! ## Course service (`src/services/courses/courses.py`) -/

/-- `None`-as-absence for a nullable column: a provided value overwrites, an
absent one leaves the stored value (the `if value is not None: setattr(...)`
loop). -/
def overwrite {α : Type} (new old : Option α) : Option α :=
  match new with
  | some v => some v
  | none => old

/-- The `for var, value in vars(course_object)` loop of `update_course` (lines
600-603): every non-`None` field of the payload overwrites the stored column;
`name` is a required field of `CourseUpdate`, so it is always written. -/
def apply_course_update (course : Course) (u : CourseUpdate) : Course :=
  { course with
    name := u.name
    description := overwrite u.description course.description
    about := overwrite u.about course.about
    learnings := overwrite u.learnings course.learnings
    tags := overwrite u.tags course.tags
    thumbnail_image := overwrite u.thumbnail_image course.thumbnail_image
    public := u.public.getD course.public
    open_to_contributors := u.open_to_contributors.getD course.open_to_contributors }

/-- `update_course` (courses.py, lines 582-638): fetch the course by UUID (404 if
absent), run `rbac_check` for `update`, apply the partial update, stamp
`update_date`, and commit the row.  The denormalised author read-model the
function also returns does not change the database and is not modelled. -/
def update_course (course_object : CourseUpdate) (course_uuid : String)
    (current_user_id : Nat) (now : String) (db : DB) : Except HTTPError DB :=
  match (db.courses.filter fun c => c.course_uuid == course_uuid).head? with
  | none => .error ⟨404, "Course not found"⟩
  | some course =>
    match rbac_check course.course_uuid current_user_id .update db with
    | .error e => .error e
    | .ok _ =>
      let course' := { apply_course_update course course_object with update_date := now }
      .ok { db with courses := db.courses.map fun c => if c.id == course.id then course' else c }

/-- The database state after a call to `update_course`: the committed session on
success, the untouched session when the call raised (every raise in the source
happens before the mutation and its commit). -/
def run_update_course (course_object : CourseUpdate) (course_uuid : String)
    (current_user_id : Nat) (now : String) (db : DB) : DB :=
  match update_course course_object course_uuid current_user_id now db with
  | .ok db' => db'
  | .error _ => db

/-! ## Contributors (`src/services/courses/contributors.py`) -/

/-- `update_course_contributor` (contributors.py, lines 65-137): reject anonymous
users, run the roles-and-authorship check (with an extra guard on a falsy
result), 404 on a missing course or missing contributor record, refuse to touch
a CREATOR record, and otherwise overwrite the record's kind, status and update
date. -/
def update_course_contributor (course_uuid : String) (contributor_user_id : Nat)
    (authorship : ResourceAuthorshipEnum) (authorship_status : ResourceAuthorshipStatusEnum)
    (current_user_id : Nat) (now : String) (db : DB) : Except HTTPError DB :=
  match authorization_verify_if_user_is_anon current_user_id with
  | .error e => .error e
  | .ok _ =>
    match authorization_verify_based_on_roles_and_authorship current_user_id .update course_uuid db with
    | .error e => .error e
    | .ok authorized =>
      if !authorized then
        .error ⟨403, "You are not authorized to update course contributors"⟩
      else
        match (db.courses.filter fun c => c.course_uuid == course_uuid).head? with
        | none => .error ⟨404, "Course not found"⟩
        | some _ =>
          match (db.resource_authors.filter fun ra =>
              ra.resource_uuid == course_uuid && ra.user_id == contributor_user_id).head? with
          | none => .error ⟨404, "Contributor not found for this course"⟩
          | some existing_authorship =>
            if existing_authorship.authorship == .CREATOR then
              .error ⟨400, "Cannot modify the role of the course creator"⟩
            else
              .ok { db with resource_authors := db.resource_authors.map (fun ra =>
                if ra.id == existing_authorship.id then
                  { ra with
                    authorship := authorship
                    authorship_status := authorship_status
                    update_date := now }
                else ra) }

/-- The database state after a call to `update_course_contributor` (errors leave
the session untouched: every raise in the source precedes the mutation and its
commit). -/
def run_update_course_contributor (course_uuid : String) (contributor_user_id : Nat)
    (authorship : ResourceAuthorshipEnum) (authorship_status : ResourceAuthorshipStatusEnum)
    (current_user_id : Nat) (now : String) (db : DB) : DB :=
  match update_course_contributor course_uuid contributor_user_id authorship
      authorship_status current_user_id now db with
  | .ok db' => db'
  | .error _ => db

/-! ## Chapter service (`src/services/courses/chapters.py`) -/

/-- The partial-update loop of `update_chapter` (chapters.py, lines 164-166),
same `None`-as-absence convention as for courses. -/
def apply_chapter_update (chapter : Chapter) (u : ChapterUpdate) : Chapter :=
  { chapter with
    name := u.name.getD chapter.name
    description := overwrite u.description chapter.description }

/-- `update_chapter` (chapters.py, lines 145-178): fetch the chapter by id (409
if absent), run `rbac_check` for `update` against the chapter's UUID, apply the
partial update and stamp `update_date`. -/
def update_chapter (chapter_object : ChapterUpdate) (chapter_id : Nat)
    (current_user_id : Nat) (now : String) (db : DB) : Except HTTPError DB :=
  match (db.chapters.filter fun c => c.id == chapter_id).head? with
  | none => .error ⟨409, "Chapter does not exist"⟩
  | some chapter =>
    match rbac_check chapter.chapter_uuid current_user_id .update db with
    | .error e => .error e
    | .ok _ =>
      let chapter' := { apply_chapter_update chapter chapter_object with update_date := now }
      .ok { db with chapters := db.chapters.map fun c => if c.id == chapter.id then chapter' else c }

/-- The database state after a call to `update_chapter` (errors leave the
session untouched: every raise in the source precedes the mutation and its
commit). -/
def run_update_chapter (chapter_object : ChapterUpdate) (chapter_id current_user_id : Nat)
    (now : String) (db : DB) : DB :=
  match update_chapter chapter_object chapter_id current_user_id now db with
  | .ok db' => db'
  | .error _ => db

/-- The `order_by(CourseChapter.order)` of the sibling query in `create_chapter`
(chapters.py, lines 55-60), modelled as a stable sort on the order column. -/
def sortCourseChapters (l : List CourseChapter) : List CourseChapter :=
  List.insertionSort (fun a b => a.order ≤ b.order) l

/-- The order computation of `create_chapter` (chapters.py, lines 55-64): the
`order` of the last link of the course in ascending order (0 when the course has
no links), plus one. -/
def create_chapter_order (course_id : Nat) (db : DB) : Nat :=
  let course_chapters := sortCourseChapters (db.course_chapters.filter fun cc => cc.course_id == course_id)
  let last_order := match course_chapters.getLast? with
    | some cc => cc.order
    | none => 0
  last_order + 1

/-- The link-insertion step of `create_chapter` (chapters.py, lines 73-97): if no
`CourseChapter` link with the chapter's id, the course's id and the computed
order exists, append one. -/
def create_chapter_link (course_id chapter_id org_id : Nat) (now : String) (db : DB) : DB :=
  let to_be_used_order := create_chapter_order course_id db
  match (db.course_chapters.filter fun cc =>
      cc.chapter_id == chapter_id && cc.course_id == course_id &&
        cc.order == to_be_used_order).head? with
  | some _ => db
  | none =>
    { db with course_chapters :=
        db.course_chapters ++ [⟨course_id, chapter_id, org_id, to_be_used_order, now, now⟩] }

/-- The `CourseChapter.course_id == course.id, CourseChapter.org_id ==
course.org_id` condition of the queries in `reorder_chapters_and_activities`:
the link row belongs to the course being reordered. -/
def isCourseLink (course : Course) (cc : CourseChapter) : Bool :=
  cc.course_id == course.id && cc.org_id == course.org_id

/-- The update-or-create loop of `reorder_chapters_and_activities` (chapters.py,
lines 381-399): walk the submitted chapter ids with their list index; an id with
an existing link for the course gets that link's `order` set to the index, an id
without one gets a fresh link appended with the index as `order`.  A link row is
identified by its `(course_id, org_id, chapter_id)` key, matching the
`existing_chapter_map` lookup. -/
def reorder_upsert (course : Course) (existingIds : List Nat) (now : String) :
    Nat → List Nat → List CourseChapter → List CourseChapter
  | _, [], ccs => ccs
  | idx, cid :: rest, ccs =>
    let ccs' :=
      if existingIds.contains cid then
        ccs.map fun cc =>
          if isCourseLink course cc && cc.chapter_id == cid then
            { cc with order := idx }
          else cc
      else
        ccs ++ [⟨course.id, cid, course.org_id, idx, now, now⟩]
    reorder_upsert course existingIds now (idx + 1) rest ccs'

/-- The chapters section of `reorder_chapters_and_activities` (chapters.py, lines
366-406): reconcile the course's order links against the submitted id list
(update / insert via `reorder_upsert`), then delete the previously existing links
whose chapter id is absent from the submitted list. -/
def reorder_course_chapters (course : Course) (submitted : List Nat) (now : String)
    (db : DB) : DB :=
  let existing := db.course_chapters.filter fun cc => isCourseLink course cc
  let existingIds := existing.map (·.chapter_id)
  let afterUpsert := reorder_upsert course existingIds now 0 submitted db.course_chapters
  { db with course_chapters := afterUpsert.filter fun cc =>
      !(isCourseLink course cc &&
        existingIds.contains cc.chapter_id && !(submitted.contains cc.chapter_id)) }

/-- `reorder_chapters_and_activities` (chapters.py, lines 348-460) on the modelled
state: fetch the course by UUID (409 if absent), run `rbac_check` for `update`,
then reconcile the chapter order links.  The activities section of the source
acts only on chapter-activity links, which are outside the modelled tables. -/
def reorder_chapters_and_activities (course_uuid : String) (submitted : List Nat)
    (current_user_id : Nat) (now : String) (db : DB) : Except HTTPError DB :=
  match (db.courses.filter fun c => c.course_uuid == course_uuid).head? with
  | none => .error ⟨409, "Course does not exist"⟩
  | some course =>
    match rbac_check course.course_uuid current_user_id .update db with
    | .error e => .error e
    | .ok _ => .ok (reorder_course_chapters course submitted now db)

/-! ## Shared fixtures for concrete evaluations -/

/-- An empty database session. -/
def emptyDB : DB := ⟨[], [], [], [], [], [], []⟩

/-- A public course of organization 1. -/
def courseX : Course :=
  ⟨7, 1, "X", none, none, none, none, none, true, false, "course_x", "", ""⟩

/-- A permission row with every action allowed. -/
def permAll : Permission := ⟨true, true, true, true⟩

/-- A permission row with every action denied. -/
def permNone : Permission := ⟨false, false, false, false⟩

/-! ## General lemmas about the RBAC checks -/

/-- The only error `check_element_type` produces is the 409 nature error. -/
theorem check_element_type_error {uuid : String} {e : HTTPError}
    (h : check_element_type uuid = .error e) :
    e = ⟨409, "Issue verifying the nature of the element"⟩ := by
  unfold check_element_type at h
  split at h
  · exact absurd h (by simp)
  · split at h
    · exact absurd h (by simp)
    · split at h
      · exact absurd h (by simp)
      · split at h
        · exact absurd h (by simp)
        · exact (Except.error.injEq _ _).mp h.symm

/-- `authorization_verify_based_on_roles_and_authorship` has exactly three
outcomes: success (`true`), the 409 nature error, or the 403 denial. -/
theorem roles_and_authorship_cases (u : Nat) (a : Action) (uuid : String) (db : DB) :
    authorization_verify_based_on_roles_and_authorship u a uuid db = .ok true ∨
    authorization_verify_based_on_roles_and_authorship u a uuid db =
      .error ⟨409, "Issue verifying the nature of the element"⟩ ∨
    authorization_verify_based_on_roles_and_authorship u a uuid db = .error rbacDeniedErr := by
  unfold authorization_verify_based_on_roles_and_authorship
  cases hcet : authorization_verify_based_on_roles u a uuid db with
  | error e =>
    unfold authorization_verify_based_on_roles at hcet
    cases hc : check_element_type uuid with
    | error e' =>
      rw [hc] at hcet
      right; left
      simp only [Except.error.injEq] at hcet
      simp [← hcet, check_element_type_error hc]
    | ok t => rw [hc] at hcet; exact absurd hcet (by simp)
  | ok isRole =>
    by_cases hA : (authorization_verify_if_user_is_author u a uuid db || isRole) = true
    · left; simp [hA]
    · right; right; simp only [Bool.not_eq_true] at hA; simp [hA]

/-- `rbac_check` for a mutating action and the anonymous subject always fails
with the "must be logged in" error, whatever the database holds. -/
theorem rbac_check_anon_mutation (uuid : String) (a : Action) (db : DB) (ha : a ≠ .read) :
    rbac_check uuid 0 a db = .error anonErr := by
  have hbeq : (a == Action.read) = false := by
    cases a
    · rfl
    · exact absurd rfl ha
    · rfl
    · rfl
  unfold rbac_check
  rw [hbeq]
  simp [authorization_verify_if_user_is_anon]

/-- C4: for the anonymous subject (id 0) and any element identifier, `rbac_check`
for `create`, `update` or `delete` fails with the 403 "You should be logged in to
perform this action" error — whatever the database holds, so no role or
authorship evaluation can influence the decision — and an `update_course` call by
the anonymous subject leaves the database state unchanged (its only non-anonymous
failure is the earlier 404 lookup, which also changes nothing). -/
theorem C4_anonymous_mutation_denied (uuid : String) (a : Action) (db : DB)
    (ha : a ≠ .read) :
    rbac_check uuid 0 a db = .error anonErr ∧
    (∀ u now, update_course u uuid 0 now db = .error anonErr ∨
       update_course u uuid 0 now db = .error ⟨404, "Course not found"⟩) ∧
    (∀ u now, run_update_course u uuid 0 now db = db) := by
  have hmain : ∀ uuid' a', a' ≠ Action.read → rbac_check uuid' 0 a' db = .error anonErr :=
    fun uuid' a' h => rbac_check_anon_mutation uuid' a' db h
  refine ⟨hmain uuid a ha, ?_, ?_⟩
  · intro u now
    unfold update_course
    cases hc : (db.courses.filter fun c => c.course_uuid == uuid).head? with
    | none => right; rfl
    | some course =>
      left
      dsimp only
      rw [hmain course.course_uuid .update (by simp)]
  · intro u now
    unfold run_update_course
    unfold update_course
    cases hc : (db.courses.filter fun c => c.course_uuid == uuid).head? with
    | none => rfl
    | some course =>
      dsimp only
      rw [hmain course.course_uuid .update (by simp)]

/-- Witness for C4 at a concrete input. -/
theorem C4_witness :
    Action.update ≠ Action.read ∧
    rbac_check "course_x" 0 .update emptyDB = .error anonErr ∧
    run_update_course ⟨"New", none, none, none, none, none, none, none⟩ "course_x" 0 "t" emptyDB =
      emptyDB := by
  have h := C4_anonymous_mutation_denied "course_x" .update emptyDB (by decide)
  exact ⟨by decide, h.1, h.2.2 _ "t"⟩

/-- C10: `authorization_verify_based_on_roles_and_authorship` never returns
`false`: every call yields `true` or raises — and whenever the element type
resolves, the raise is the 403 denial.  Consequently the `if not authorized`
guard in `update_course_contributor` is unreachable: no call ever produces its
403 "You are not authorized to update course contributors" error. -/
theorem C10_roles_and_authorship_never_false (u : Nat) (a : Action) (uuid : String) (db : DB) :
    authorization_verify_based_on_roles_and_authorship u a uuid db ≠ .ok false ∧
    (∀ t, check_element_type uuid = .ok t →
       authorization_verify_based_on_roles_and_authorship u a uuid db = .ok true ∨
       authorization_verify_based_on_roles_and_authorship u a uuid db = .error rbacDeniedErr) ∧
    (∀ cuid cu auth st now,
       update_course_contributor cuid cu auth st u now db ≠
         .error ⟨403, "You are not authorized to update course contributors"⟩) := by
  refine ⟨?_, ?_, ?_⟩
  · rcases roles_and_authorship_cases u a uuid db with h | h | h <;> simp [h]
  · intro t ht
    rcases roles_and_authorship_cases u a uuid db with h | h | h
    · exact Or.inl h
    · exfalso
      unfold authorization_verify_based_on_roles_and_authorship at h
      unfold authorization_verify_based_on_roles at h
      rw [ht] at h
      dsimp only at h
      split at h <;> simp_all [rbacDeniedErr]
    · exact Or.inr h
  · intro cuid cu auth st now hcontra
    unfold update_course_contributor at hcontra
    unfold authorization_verify_if_user_is_anon at hcontra
    by_cases hu0 : (u == 0)
    · rw [if_pos hu0] at hcontra
      simp [anonErr] at hcontra
    · rw [if_neg hu0] at hcontra
      dsimp only at hcontra
      rcases roles_and_authorship_cases u .update cuid db with h | h | h <;> rw [h] at hcontra
      · simp only [Bool.not_true, Bool.false_eq_true, if_false] at hcontra
        split at hcontra
        · simp at hcontra
        · split at hcontra
          · simp at hcontra
          · split at hcontra <;> simp_all
      · simp at hcontra
      · simp [rbacDeniedErr] at hcontra

/-- Witness for C10 at a concrete input. -/
theorem C10_witness :
    check_element_type "course_x" = .ok "courses" ∧
    (authorization_verify_based_on_roles_and_authorship 1 .update "course_x" emptyDB = .ok true ∨
      authorization_verify_based_on_roles_and_authorship 1 .update "course_x" emptyDB =
        .error rbacDeniedErr) ∧
    update_course_contributor "course_x" 2 .MAINTAINER .ACTIVE 1 "t" emptyDB ≠
      .error ⟨403, "You are not authorized to update course contributors"⟩ := by
  have h := C10_roles_and_authorship_never_false 1 .update "course_x" emptyDB
  exact ⟨by decide, h.2.1 "courses" (by decide), h.2.2 "course_x" 2 .MAINTAINER .ACTIVE "t"⟩

/-- C5: a subject with no ACTIVE CREATOR/MAINTAINER/CONTRIBUTOR authorship record
on the resource and whose role check comes back `false` is denied: the combined
check raises the 403 denial rather than returning, and so does `rbac_check` for
`update` when the subject is authenticated. -/
theorem C5_no_authorship_no_role_denied (db : DB) (u : Nat) (uuid : String)
    (hauth : ∀ ra ∈ db.resource_authors, ra.resource_uuid = uuid → ra.user_id = u →
       ¬((ra.authorship = .CREATOR ∨ ra.authorship = .MAINTAINER ∨
           ra.authorship = .CONTRIBUTOR) ∧ ra.authorship_status = .ACTIVE))
    (hrole : authorization_verify_based_on_roles u .update uuid db = .ok false) :
    authorization_verify_based_on_roles_and_authorship u .update uuid db = .error rbacDeniedErr ∧
    (u ≠ 0 → rbac_check uuid u .update db = .error rbacDeniedErr) := by
  have hA : authorization_verify_if_user_is_author u .update uuid db = false := by
    unfold authorization_verify_if_user_is_author
    cases hh : (db.resource_authors.filter fun ra => ra.resource_uuid == uuid).head? with
    | none => rfl
    | some ra =>
      have hmem : ra ∈ db.resource_authors.filter fun ra => ra.resource_uuid == uuid :=
        List.mem_of_mem_head? (by rw [hh]; exact rfl)
      have hmem' := List.mem_filter.mp hmem
      have hq := hauth ra hmem'.1 (by simpa using hmem'.2)
      dsimp only
      by_cases hu : (ra.user_id == u)
      · rw [if_pos hu]
        have hq' := hq (by simpa using hu)
        cases h1 : ra.authorship <;> cases h2 : ra.authorship_status <;> simp_all
      · rw [if_neg hu]
  have hmain : authorization_verify_based_on_roles_and_authorship u .update uuid db =
      .error rbacDeniedErr := by
    unfold authorization_verify_based_on_roles_and_authorship
    rw [hrole, hA]
    rfl
  refine ⟨hmain, fun hu => ?_⟩
  unfold rbac_check
  have : (u == 0) = false := by simpa using hu
  simp [authorization_verify_if_user_is_anon, this, hmain, Except.map]

/-- Witness for C5 at a concrete input. -/
theorem C5_witness :
    authorization_verify_based_on_roles 1 .update "course_x" emptyDB = .ok false ∧
    authorization_verify_based_on_roles_and_authorship 1 .update "course_x" emptyDB =
      .error rbacDeniedErr ∧
    rbac_check "course_x" 1 .update emptyDB = .error rbacDeniedErr := by
  have h := C5_no_authorship_no_role_denied emptyDB 1 "course_x"
    (by intro ra hra; simp [emptyDB] at hra) (by decide)
  exact ⟨by decide, h.1, h.2 (by decide)⟩

/-- C3: the anonymous (id 0) `read` decision follows the `public` flag: it is
allow for a course flagged public and the 403 denial when every course row with
the requested UUID is private. -/
theorem C3_anonymous_read_follows_public_flag (db : DB) (uuid : String)
    (hnat : check_element_type uuid = .ok "courses") :
    (∀ c ∈ db.courses, c.course_uuid = uuid → c.public = true →
       rbac_check uuid 0 .read db = .ok ()) ∧
    ((∀ c ∈ db.courses, c.course_uuid = uuid → c.public = false) →
       rbac_check uuid 0 .read db = .error publicDeniedErr) := by
  have hred : rbac_check uuid 0 .read db =
      (authorization_verify_if_element_is_public uuid .read db).map fun _ => () := rfl
  have hpub : authorization_verify_if_element_is_public uuid .read db =
      (match (db.courses.filter fun c => c.public && c.course_uuid == uuid).head? with
       | some _ => .ok true
       | none => .error publicDeniedErr) := by
    unfold authorization_verify_if_element_is_public
    rw [hnat]
    rfl
  constructor
  · intro c hc hcu hcp
    have hmem : c ∈ db.courses.filter fun c0 => c0.public && c0.course_uuid == uuid :=
      List.mem_filter.mpr ⟨hc, by simp [hcu, hcp]⟩
    have hne := List.ne_nil_of_mem hmem
    rw [hred, hpub]
    cases hh : (db.courses.filter fun c0 => c0.public && c0.course_uuid == uuid).head? with
    | none => exact absurd (by simpa using hh) hne
    | some c0 => rfl
  · intro hall
    have hnil : (db.courses.filter fun c0 => c0.public && c0.course_uuid == uuid) = [] := by
      rw [List.filter_eq_nil_iff]
      intro c hc
      by_cases hcu : c.course_uuid = uuid
      · simp [hcu, hall c hc hcu]
      · simp [hcu]
    rw [hred, hpub, hnil]
    rfl

/-- A public course fixture for the C3 witness. -/
def C3db : DB := { emptyDB with courses := [courseX] }

/-- Witness for C3 at a concrete input. -/
theorem C3_witness :
    check_element_type "course_x" = .ok "courses" ∧
    rbac_check "course_x" 0 .read C3db = .ok () := by
  have h := C3_anonymous_read_follows_public_flag C3db "course_x" (by decide)
  exact ⟨by decide, h.1 courseX (by simp [C3db]) rfl rfl⟩

/-- C7: a contributor record whose authorship kind is CREATOR cannot be updated:
once the guards pass and the fetched record is a CREATOR one,
`update_course_contributor` raises the 400 "Cannot modify the role of the course
creator" error and the database — in particular the record's kind, status and
update date — is unchanged. -/
theorem C7_creator_record_immutable (cuid : String) (cu u : Nat)
    (auth : ResourceAuthorshipEnum) (st : ResourceAuthorshipStatusEnum) (now : String)
    (db : DB) (c : Course) (ra : ResourceAuthor)
    (hu : u ≠ 0)
    (hrbac : authorization_verify_based_on_roles_and_authorship u .update cuid db = .ok true)
    (hcourse : (db.courses.filter fun c0 => c0.course_uuid == cuid).head? = some c)
    (hra : (db.resource_authors.filter fun r =>
        r.resource_uuid == cuid && r.user_id == cu).head? = some ra)
    (hcreator : ra.authorship = .CREATOR) :
    update_course_contributor cuid cu auth st u now db =
      .error ⟨400, "Cannot modify the role of the course creator"⟩ ∧
    run_update_course_contributor cuid cu auth st u now db = db := by
  have hu0 : (u == 0) = false := by simpa using hu
  have hcr : (ra.authorship == ResourceAuthorshipEnum.CREATOR) = true := by
    simp [hcreator]
  have hcall : update_course_contributor cuid cu auth st u now db =
      .error ⟨400, "Cannot modify the role of the course creator"⟩ := by
    unfold update_course_contributor
    unfold authorization_verify_if_user_is_anon
    simp only [hu0, Bool.false_eq_true, reduceIte, hrbac, Bool.not_true, hcourse, hra, hcr,
      if_true]
  refine ⟨hcall, ?_⟩
  unfold run_update_course_contributor
  rw [hcall]

/-- Fixture for C7: user 3 is the ACTIVE CREATOR of course `course_x`. -/
def C7db : DB :=
  { emptyDB with
    courses := [courseX]
    resource_authors := [⟨1, "course_x", 3, .CREATOR, .ACTIVE, "", ""⟩] }

/-- Witness for C7 at a concrete input. -/
theorem C7_witness :
    update_course_contributor "course_x" 3 .MAINTAINER .ACTIVE 3 "t" C7db =
      .error ⟨400, "Cannot modify the role of the course creator"⟩ ∧
    run_update_course_contributor "course_x" 3 .MAINTAINER .ACTIVE 3 "t" C7db = C7db :=
  C7_creator_record_immutable "course_x" 3 3 .MAINTAINER .ACTIVE "t" C7db courseX
    ⟨1, "course_x", 3, .CREATOR, .ACTIVE, "", ""⟩ (by decide) (by decide) (by decide)
    (by decide) (by decide)

/-- Failing input for C1: course `course_x` has two authorship rows; the first
belongs to user 2 (CREATOR), the second to user 1 (ACTIVE MAINTAINER). -/
def C1db : DB :=
  { emptyDB with
    courses := [{ courseX with public := false }]
    resource_authors :=
      [⟨1, "course_x", 2, .CREATOR, .ACTIVE, "", ""⟩,
       ⟨2, "course_x", 1, .MAINTAINER, .ACTIVE, "", ""⟩] }

/-- C1: evaluation of the code at the failing input: user 1 holds an ACTIVE
MAINTAINER authorship on `course_x`, yet the authorship check — which fetches
only the first authorship row of the resource and never filters by user —
returns `false`, and the combined `update` decision is the 403 denial instead of
allow. -/
theorem C1_active_author_denied_when_not_first_row :
    (∃ ra ∈ C1db.resource_authors, ra.resource_uuid = "course_x" ∧ ra.user_id = 1 ∧
       ra.authorship = .MAINTAINER ∧ ra.authorship_status = .ACTIVE) ∧
    authorization_verify_if_user_is_author 1 .update "course_x" C1db = false ∧
    authorization_verify_based_on_roles_and_authorship 1 .update "course_x" C1db =
      .error rbacDeniedErr ∧
    rbac_check "course_x" 1 .update C1db = .error rbacDeniedErr :=
  ⟨by decide, by decide, by decide, by decide⟩

/-- The claim's specification-side reading of the role check (C2): some role
assigned to the subject that is global or scoped to the organization owning the
resource has the permission-matrix entry for the resource's type and the action
set to true. -/
def claim_role_grants (db : DB) (user_id resource_org : Nat) (element_type : String)
    (a : Action) : Prop :=
  ∃ role ∈ db.roles, ∃ uo ∈ db.user_organizations,
    uo.user_id = user_id ∧ uo.role_id = role.id ∧
    (role.org_id = none ∨ role.org_id = some resource_org) ∧
    role_grants role element_type a = true

/-- What the code actually grants (C2): some role reached through one of the
subject's membership links, the role being global or scoped to that same
membership's organization — the resource's organization plays no part. -/
def code_role_grants (db : DB) (user_id : Nat) (element_type : String) (a : Action) : Prop :=
  ∃ role ∈ db.roles, ∃ uo ∈ db.user_organizations,
    uo.role_id = role.id ∧ (role.org_id = some uo.org_id ∨ role.org_id = none) ∧
    uo.user_id = user_id ∧ role_grants role element_type a = true

/-- Counterexample fixture for C2: the course lives in organization 1, while
user 5 is a member of organization 2 with role 10, scoped to organization 2,
which allows every course action. -/
def C2db : DB :=
  { emptyDB with
    courses := [courseX]
    roles := [⟨10, some 2, some ⟨permAll, permNone, permNone, permNone⟩⟩]
    user_organizations := [⟨5, 2, 10⟩] }

/-- C2 counterexample: the role check returns `true` for user 5 on the course of
organization 1 although no role of user 5 is global or scoped to organization 1
— refuting the claimed equivalence. -/
theorem C2_counterexample :
    authorization_verify_based_on_roles 5 .update "course_x" C2db = .ok true ∧
    (∀ c ∈ C2db.courses, c.course_uuid = "course_x" → c.org_id = 1) ∧
    ¬ claim_role_grants C2db 5 1 "courses" .update :=
  ⟨by decide, by decide, by unfold claim_role_grants; decide⟩

/-- C2 (amended): the role check returns `true` iff some role reached through one
of the subject's membership links — global or scoped to that membership's own
organization — grants the action for the element's type; the organization owning
the resource is not consulted. -/
theorem C2_roles_check_ignores_resource_org (db : DB) (u : Nat) (uuid t : String)
    (a : Action) (hnat : check_element_type uuid = .ok t) :
    authorization_verify_based_on_roles u a uuid db = .ok true ↔
      code_role_grants db u t a := by
  unfold authorization_verify_based_on_roles
  rw [hnat]
  dsimp only
  rw [Except.ok.injEq]
  unfold rolesQuery code_role_grants
  rw [List.any_eq_true]
  simp only [List.mem_filter, List.any_eq_true, Bool.and_eq_true, Bool.or_eq_true, beq_iff_eq]
  aesop

/-- Witness for the amended C2 theorem at a concrete input. -/
theorem C2_witness :
    check_element_type "course_x" = .ok "courses" ∧
    (authorization_verify_based_on_roles 5 .update "course_x" C2db = .ok true ↔
      code_role_grants C2db 5 "courses" .update) :=
  ⟨by decide,
    C2_roles_check_ignores_resource_org C2db 5 "course_x" "courses" .update (by decide)⟩

/-- C8: the partial updates only overwrite provided fields.  When `update_course`
succeeds, the persisted row is the fetched row with exactly the non-`None` payload
fields (and the `update_date` stamp) overwritten: an unset `description`, `tags`,
`about`, `learnings` or `public` keeps the stored value, while the required
`name` is always written; `update_chapter` behaves the same way. -/
theorem C8_partial_update_preserves_unset_fields :
    (∀ (u : CourseUpdate) (uuid : String) (user : Nat) (now : String) (db db' : DB) (c : Course),
       (db.courses.filter fun c0 => c0.course_uuid == uuid).head? = some c →
       update_course u uuid user now db = .ok db' →
       db'.courses = (db.courses.map fun c0 => if c0.id == c.id then
           { apply_course_update c u with update_date := now } else c0) ∧
       (u.description = none → (apply_course_update c u).description = c.description) ∧
       (u.tags = none → (apply_course_update c u).tags = c.tags) ∧
       (u.about = none → (apply_course_update c u).about = c.about) ∧
       (u.learnings = none → (apply_course_update c u).learnings = c.learnings) ∧
       (u.public = none → (apply_course_update c u).public = c.public) ∧
       (apply_course_update c u).name = u.name) ∧
    (∀ (v : ChapterUpdate) (cid user : Nat) (now : String) (db db' : DB) (ch : Chapter),
       (db.chapters.filter fun c0 => c0.id == cid).head? = some ch →
       update_chapter v cid user now db = .ok db' →
       db'.chapters = (db.chapters.map fun c0 => if c0.id == ch.id then
           { apply_chapter_update ch v with update_date := now } else c0) ∧
       (v.name = none → (apply_chapter_update ch v).name = ch.name) ∧
       (v.description = none → (apply_chapter_update ch v).description = ch.description)) := by
  constructor
  · intro u uuid user now db db' c hc hok
    unfold update_course at hok
    rw [hc] at hok
    dsimp only at hok
    cases hr : rbac_check c.course_uuid user .update db with
    | error e => rw [hr] at hok; exact absurd hok (by simp)
    | ok r =>
      rw [hr] at hok
      dsimp only at hok
      have hdb := Except.ok.inj hok
      refine ⟨by rw [← hdb], ?_, ?_, ?_, ?_, ?_, ?_⟩ <;>
        first
          | (intro h; simp [apply_course_update, overwrite, h])
          | simp [apply_course_update]
  · intro v cid user now db db' ch hc hok
    unfold update_chapter at hok
    rw [hc] at hok
    dsimp only at hok
    cases hr : rbac_check ch.chapter_uuid user .update db with
    | error e => rw [hr] at hok; exact absurd hok (by simp)
    | ok r =>
      rw [hr] at hok
      dsimp only at hok
      have hdb := Except.ok.inj hok
      refine ⟨by rw [← hdb], ?_, ?_⟩ <;>
        (intro h; simp [apply_chapter_update, overwrite, h])

/-- Permission matrix fixture for C8: every course and chapter action allowed. -/
def C8rights : Rights := ⟨permAll, permAll, permNone, permNone⟩

/-- Chapter fixture for C8. -/
def C8chapter : Chapter := ⟨21, 1, 7, "chapter_y", "Ch", some "d", "", ""⟩

/-- Fixture for C8: user 3 holds a global role allowing course and chapter
updates. -/
def C8db : DB :=
  { emptyDB with
    courses := [courseX]
    chapters := [C8chapter]
    roles := [⟨1, none, some C8rights⟩]
    user_organizations := [⟨3, 1, 1⟩] }

/-- Course payload providing only `name` for the C8 witness. -/
def C8u : CourseUpdate := ⟨"New", none, none, none, none, none, none, none⟩

/-- Chapter payload providing only `name` for the C8 witness. -/
def C8v : ChapterUpdate := ⟨some "NewCh", none⟩

/-- Witness for C8 at a concrete input. -/
theorem C8_witness :
    (C8db.courses.filter fun c0 => c0.course_uuid == "course_x").head? = some courseX ∧
    update_course C8u "course_x" 3 "t" C8db = .ok (run_update_course C8u "course_x" 3 "t" C8db) ∧
    ((run_update_course C8u "course_x" 3 "t" C8db).courses =
      (C8db.courses.map fun c0 => if c0.id == courseX.id then
        { apply_course_update courseX C8u with update_date := "t" } else c0)) ∧
    (apply_course_update courseX C8u).description = courseX.description ∧
    (C8db.chapters.filter fun c0 => c0.id == 21).head? = some C8chapter ∧
    update_chapter C8v 21 3 "t" C8db = .ok (run_update_chapter C8v 21 3 "t" C8db) ∧
    ((run_update_chapter C8v 21 3 "t" C8db).chapters =
      (C8db.chapters.map fun c0 => if c0.id == C8chapter.id then
        { apply_chapter_update C8chapter C8v with update_date := "t" } else c0)) ∧
    (apply_chapter_update C8chapter C8v).description = C8chapter.description := by
  have h1 := (C8_partial_update_preserves_unset_fields.1) C8u "course_x" 3 "t" C8db
    (run_update_course C8u "course_x" 3 "t" C8db) courseX (by decide) (by decide)
  have h2 := (C8_partial_update_preserves_unset_fields.2) C8v 21 3 "t" C8db
    (run_update_chapter C8v 21 3 "t" C8db) C8chapter (by decide) (by decide)
  exact ⟨by decide, by decide, h1.1, h1.2.1 rfl, by decide, by decide, h2.1, h2.2.2 rfl⟩

/-! ## Order assignment on chapter creation (C9) -/

instance : IsTotal CourseChapter (fun a b => a.order ≤ b.order) :=
  ⟨fun a b => Nat.le_total a.order b.order⟩

instance : IsTrans CourseChapter (fun a b => a.order ≤ b.order) :=
  ⟨fun _ _ _ h h' => Nat.le_trans h h'⟩

/-- `sortCourseChapters` permutes its input. -/
theorem sortCourseChapters_perm (l : List CourseChapter) : (sortCourseChapters l).Perm l :=
  List.perm_insertionSort _ l

/-- The order column of a sorted sibling list is ascending. -/
theorem sortCourseChapters_sorted (l : List CourseChapter) :
    ((sortCourseChapters l).map (·.order)).Sorted (· ≤ ·) :=
  List.Pairwise.map _ (fun _ _ h => h) (List.sorted_insertionSort _ l)

/-- Every member is bounded by the `max`-fold. -/
theorem mem_le_foldr_max : ∀ (l : List Nat) (x : Nat), x ∈ l → x ≤ l.foldr max 0 := by
  intro l
  induction l with
  | nil => intro x hx; cases hx
  | cons a t ih =>
    intro x hx
    rcases List.mem_cons.mp hx with rfl | hx
    · exact le_max_left _ _
    · exact le_trans (ih x hx) (le_max_right _ _)

/-- The last element of a sorted list of naturals is its maximum. -/
theorem sorted_getLast?_foldr_max :
    ∀ (l : List Nat), l.Sorted (· ≤ ·) → l ≠ [] → l.getLast? = some (l.foldr max 0) := by
  intro l
  induction l with
  | nil => intro _ h; exact absurd rfl h
  | cons a t ih =>
    intro hs _
    cases t with
    | nil => simp
    | cons b t' =>
      have hab : ∀ c ∈ b :: t', a ≤ c := (List.sorted_cons.mp hs).1
      have hst : (b :: t').Sorted (· ≤ ·) := (List.sorted_cons.mp hs).2
      have ih' := ih hst (by simp)
      have hb : b ≤ (b :: t').foldr max 0 := mem_le_foldr_max _ b (by simp)
      have ha : a ≤ (b :: t').foldr max 0 := le_trans (hab b (by simp)) hb
      rw [List.getLast?_cons_cons, ih']
      have hfold : (a :: b :: t').foldr max 0 = (b :: t').foldr max 0 :=
        Nat.max_eq_right ha
      rw [hfold]

/-- With no sibling links the computed order is 1. -/
theorem create_chapter_order_empty (course_id : Nat) (db : DB)
    (h : db.course_chapters.filter (fun cc => cc.course_id == course_id) = []) :
    create_chapter_order course_id db = 1 := by
  unfold create_chapter_order
  rw [h]
  rfl

/-- With sibling links the computed order is their maximum order plus one. -/
theorem create_chapter_order_max (course_id : Nat) (db : DB)
    (h : db.course_chapters.filter (fun cc => cc.course_id == course_id) ≠ []) :
    create_chapter_order course_id db =
      ((db.course_chapters.filter fun cc => cc.course_id == course_id).map (·.order)).foldr
          max 0 + 1 := by
  have hsne : sortCourseChapters
      (db.course_chapters.filter fun cc => cc.course_id == course_id) ≠ [] := by
    intro hc
    exact h ((hc ▸ sortCourseChapters_perm
      (db.course_chapters.filter fun cc => cc.course_id == course_id)).symm.eq_nil)
  have hmap : ((sortCourseChapters
        (db.course_chapters.filter fun cc => cc.course_id == course_id)).map (·.order)).getLast? =
      some (((sortCourseChapters
        (db.course_chapters.filter fun cc => cc.course_id == course_id)).map (·.order)).foldr
          max 0) :=
    sorted_getLast?_foldr_max _ (sortCourseChapters_sorted _) (by simpa using hsne)
  have hfold : ((sortCourseChapters
        (db.course_chapters.filter fun cc => cc.course_id == course_id)).map (·.order)).foldr
          max 0 =
      ((db.course_chapters.filter fun cc => cc.course_id == course_id).map (·.order)).foldr
          max 0 :=
    ((sortCourseChapters_perm _).map _).foldr_eq 0
  rw [List.getLast?_map] at hmap
  unfold create_chapter_order
  cases hgl : (sortCourseChapters
      (db.course_chapters.filter fun cc => cc.course_id == course_id)).getLast? with
  | none => rw [hgl] at hmap; simp at hmap
  | some cc =>
    rw [hgl] at hmap
    simp only [Option.map_some', Option.some.injEq] at hmap
    dsimp only
    rw [hgl]
    dsimp only
    rw [hmap, hfold]

/-- A chapter id with no existing link gets its link appended with the computed
order. -/
theorem create_chapter_link_appends (course_id chapter_id org_id : Nat) (now : String)
    (db : DB) (hfresh : ∀ cc ∈ db.course_chapters, cc.chapter_id ≠ chapter_id) :
    (create_chapter_link course_id chapter_id org_id now db).course_chapters =
      db.course_chapters ++
        [⟨course_id, chapter_id, org_id, create_chapter_order course_id db, now, now⟩] := by
  unfold create_chapter_link
  have hguard : (db.course_chapters.filter fun cc =>
      cc.chapter_id == chapter_id && cc.course_id == course_id &&
        cc.order == create_chapter_order course_id db) = [] :=
    List.filter_eq_nil_iff.mpr fun cc hcc => by simp [hfresh cc hcc]
  dsimp only
  rw [hguard]
  rfl

/-- The `max`-fold of a nonempty range is its last value. -/
theorem foldr_max_range' : ∀ (n s : Nat), 0 < n → (List.range' s n).foldr max 0 = s + n - 1 := by
  intro n
  induction n with
  | zero => intro s h; exact absurd h (by simp)
  | succ m ih =>
    intro s _
    rw [List.range'_succ]
    rcases Nat.eq_zero_or_pos m with rfl | hm
    · simp
    · rw [List.foldr_cons, ih (s + 1) hm]
      have hle : s ≤ s + 1 + m - 1 := by omega
      rw [Nat.max_eq_right hle]
      omega

/-- C9: appending a chapter assigns it order (max existing sibling order) + 1 —
and order 1 when the course has no chapter links; the link row is appended with
that order, and when the existing sibling orders are (a permutation of) the dense
range starting at `s` of length `n`, the resulting sibling orders are the dense
range of length `n + 1`. -/
theorem C9_append_assigns_next_order (course_id chapter_id org_id : Nat) (now : String)
    (db : DB) (hfresh : ∀ cc ∈ db.course_chapters, cc.chapter_id ≠ chapter_id) :
    ((db.course_chapters.filter fun cc => cc.course_id == course_id) = [] →
       create_chapter_order course_id db = 1) ∧
    ((db.course_chapters.filter fun cc => cc.course_id == course_id) ≠ [] →
       create_chapter_order course_id db =
         ((db.course_chapters.filter fun cc => cc.course_id == course_id).map (·.order)).foldr
             max 0 + 1) ∧
    ((create_chapter_link course_id chapter_id org_id now db).course_chapters =
       db.course_chapters ++
         [⟨course_id, chapter_id, org_id, create_chapter_order course_id db, now, now⟩]) ∧
    (∀ s n, 0 < n →
       ((db.course_chapters.filter fun cc => cc.course_id == course_id).map (·.order)).Perm
         (List.range' s n) →
       (((create_chapter_link course_id chapter_id org_id now db).course_chapters.filter
           fun cc => cc.course_id == course_id).map (·.order)).Perm
         (List.range' s (n + 1))) := by
  refine ⟨create_chapter_order_empty course_id db, create_chapter_order_max course_id db,
    create_chapter_link_appends course_id chapter_id org_id now db hfresh, ?_⟩
  intro s n hn hperm
  have hne : (db.course_chapters.filter fun cc => cc.course_id == course_id) ≠ [] := by
    intro h0
    rw [h0] at hperm
    have := hperm.symm.eq_nil
    rw [List.range'_eq_nil] at this
    omega
  have horder : create_chapter_order course_id db = s + n := by
    rw [create_chapter_order_max course_id db hne, hperm.foldr_eq 0, foldr_max_range' n s hn]
    omega
  rw [create_chapter_link_appends course_id chapter_id org_id now db hfresh,
    List.filter_append]
  have hfl : (([⟨course_id, chapter_id, org_id, create_chapter_order course_id db, now,
      now⟩] : List CourseChapter).filter fun cc => cc.course_id == course_id) =
      [⟨course_id, chapter_id, org_id, create_chapter_order course_id db, now, now⟩] := by
    simp
  rw [hfl, List.map_append, horder]
  have hr := @List.range'_concat 1 s n
  rw [one_mul] at hr
  rw [hr]
  exact hperm.append (List.Perm.refl _)

/-- Fixture for the C9 witness: three links of course 7 with orders 0, 1, 2. -/
def C9db : DB :=
  { emptyDB with
    course_chapters :=
      [⟨7, 10, 1, 0, "", ""⟩, ⟨7, 11, 1, 1, "", ""⟩, ⟨7, 12, 1, 2, "", ""⟩] }

/-- Witness for C9 at a concrete input. -/
theorem C9_witness :
    create_chapter_order 7 emptyDB = 1 ∧
    create_chapter_order 7 C9db = 3 ∧
    ((create_chapter_link 7 99 1 "t" C9db).course_chapters =
      C9db.course_chapters ++ [⟨7, 99, 1, 3, "t", "t"⟩]) ∧
    (((create_chapter_link 7 99 1 "t" C9db).course_chapters.filter
        fun cc => cc.course_id == 7).map (·.order)).Perm (List.range' 0 4) := by
  have h0 := C9_append_assigns_next_order 7 99 1 "t" emptyDB (by intro cc hcc; simp [emptyDB] at hcc)
  have h := C9_append_assigns_next_order 7 99 1 "t" C9db (by decide)
  refine ⟨h0.1 (by decide), ?_, ?_, ?_⟩
  · rw [h.2.1 (by decide)]
    decide
  · have h3 := h.2.2.1
    rw [h3]
    have : create_chapter_order 7 C9db = 3 := by
      rw [h.2.1 (by decide)]
      decide
    rw [this]
  · exact h.2.2.2 0 3 (by decide) (by decide)

/-! ## Reorder reconciliation (C6) -/

/-- Closed form of the effect of the upsert loop on one pre-existing row: a link
of the course whose chapter id was fetched and is resubmitted gets its order set
to the id's index (counted from `idx0`); every other row is untouched. -/
def upsertUpdate (course : Course) (existingIds sub : List Nat) (idx0 : Nat)
    (cc : CourseChapter) : CourseChapter :=
  if isCourseLink course cc && existingIds.contains cc.chapter_id &&
      sub.contains cc.chapter_id then
    { cc with order := idx0 + sub.indexOf cc.chapter_id }
  else cc

/-- Closed form of the rows the upsert loop appends: one fresh link per submitted
id without an existing link, carrying its index as order. -/
def upsertInserts (course : Course) (existingIds : List Nat) (now : String) :
    Nat → List Nat → List CourseChapter
  | _, [] => []
  | idx, cid :: rest =>
    (if existingIds.contains cid then [] else [⟨course.id, cid, course.org_id, idx, now, now⟩]) ++
      upsertInserts course existingIds now (idx + 1) rest

/-- `upsertUpdate` only rewrites the order column. -/
theorem upsertUpdate_fields (course : Course) (existingIds sub : List Nat) (idx0 : Nat)
    (cc : CourseChapter) :
    (upsertUpdate course existingIds sub idx0 cc).course_id = cc.course_id ∧
    (upsertUpdate course existingIds sub idx0 cc).org_id = cc.org_id ∧
    (upsertUpdate course existingIds sub idx0 cc).chapter_id = cc.chapter_id := by
  unfold upsertUpdate
  split <;> simp

/-- A row that is not a link of the course is untouched by `upsertUpdate`. -/
theorem upsertUpdate_not_course (course : Course) (existingIds sub : List Nat) (idx0 : Nat)
    (cc : CourseChapter) (h : isCourseLink course cc = false) :
    upsertUpdate course existingIds sub idx0 cc = cc := by
  unfold upsertUpdate
  simp [h]

/-- Stepping the start index past a fetched, resubmitted id `cid`: first setting
the cid-rows' order to `idx` and then updating for the remaining ids from
`idx + 1` is the same as updating for `cid :: rest` from `idx`. -/
theorem upsertUpdate_step_mem (course : Course) (existingIds rest : List Nat)
    (cid idx : Nat) (hnotin : cid ∉ rest) (hcid : existingIds.contains cid = true)
    (cc : CourseChapter) :
    upsertUpdate course existingIds rest (idx + 1)
      (if isCourseLink course cc && cc.chapter_id == cid then { cc with order := idx }
       else cc) =
    upsertUpdate course existingIds (cid :: rest) idx cc := by
  have hrest : rest.contains cid = false := by simp [hnotin]
  have hmem : cid ∈ existingIds := List.elem_iff.mp hcid
  by_cases hEq : cc.chapter_id = cid
  · by_cases hC : isCourseLink course cc = true
    · rw [if_pos (by simp [hC, hEq])]
      unfold upsertUpdate
      rw [if_neg (by simp [hEq, hrest, hnotin]),
        if_pos (by simp [hC, hEq, hmem, List.contains_cons])]
      simp [hEq, List.indexOf_cons_self]
    · rw [if_neg (by simp [hC])]
      rw [upsertUpdate_not_course _ _ _ _ _ (by simpa using hC),
        upsertUpdate_not_course _ _ _ _ _ (by simpa using hC)]
  · rw [if_neg (by simp [hEq])]
    unfold upsertUpdate
    have hidx : (cid :: rest).indexOf cc.chapter_id = rest.indexOf cc.chapter_id + 1 :=
      List.indexOf_cons_ne rest (Ne.symm hEq)
    have hcont : (cid :: rest).contains cc.chapter_id = rest.contains cc.chapter_id := by
      simp [List.contains_cons, hEq]
    rw [hcont, hidx]
    by_cases hcond : (isCourseLink course cc && existingIds.contains cc.chapter_id &&
        rest.contains cc.chapter_id) = true
    · rw [if_pos hcond, if_pos hcond]
      have harith : idx + 1 + rest.indexOf cc.chapter_id =
          idx + (rest.indexOf cc.chapter_id + 1) := by omega
      rw [harith]
    · rw [if_neg hcond, if_neg hcond]

/-- Stepping the start index past a submitted id without an existing link leaves
`upsertUpdate` unchanged apart from the index shift. -/
theorem upsertUpdate_step_notmem (course : Course) (existingIds rest : List Nat)
    (cid idx : Nat) (hcid : existingIds.contains cid = false) (cc : CourseChapter) :
    upsertUpdate course existingIds rest (idx + 1) cc =
    upsertUpdate course existingIds (cid :: rest) idx cc := by
  have hnm : cid ∉ existingIds := by simpa using hcid
  unfold upsertUpdate
  by_cases hEq : cc.chapter_id = cid
  · rw [if_neg (by simp [hEq, hnm]), if_neg (by simp [hEq, hnm])]
  · have hidx : (cid :: rest).indexOf cc.chapter_id = rest.indexOf cc.chapter_id + 1 :=
      List.indexOf_cons_ne rest (Ne.symm hEq)
    have hcont : (cid :: rest).contains cc.chapter_id = rest.contains cc.chapter_id := by
      simp [List.contains_cons, hEq]
    rw [hcont, hidx]
    by_cases hcond : (isCourseLink course cc && existingIds.contains cc.chapter_id &&
        rest.contains cc.chapter_id) = true
    · rw [if_pos hcond, if_pos hcond]
      have harith : idx + 1 + rest.indexOf cc.chapter_id =
          idx + (rest.indexOf cc.chapter_id + 1) := by omega
      rw [harith]
    · rw [if_neg hcond, if_neg hcond]

/-- A freshly inserted link (its id has no existing link) is untouched by
`upsertUpdate`. -/
theorem upsertUpdate_new_row (course : Course) (existingIds sub : List Nat)
    (idx0 i cid : Nat) (now : String) (hcid : existingIds.contains cid = false) :
    upsertUpdate course existingIds sub idx0 ⟨course.id, cid, course.org_id, i, now, now⟩ =
      ⟨course.id, cid, course.org_id, i, now, now⟩ := by
  have hnm : cid ∉ existingIds := by simpa using hcid
  unfold upsertUpdate
  rw [if_neg (by simp [hnm])]

/-- Closed form of the upsert loop: it maps `upsertUpdate` over the session rows
and appends `upsertInserts`. -/
theorem reorder_upsert_closed (course : Course) (existingIds : List Nat) (now : String) :
    ∀ (sub : List Nat) (idx : Nat) (ccs : List CourseChapter), sub.Nodup →
      reorder_upsert course existingIds now idx sub ccs =
        ccs.map (upsertUpdate course existingIds sub idx) ++
          upsertInserts course existingIds now idx sub := by
  intro sub
  induction sub with
  | nil =>
    intro idx ccs _
    have hid : ∀ cc ∈ ccs, upsertUpdate course existingIds [] idx cc = id cc := by
      intro cc _
      unfold upsertUpdate
      rw [if_neg (by simp)]
      rfl
    have h1 : reorder_upsert course existingIds now idx [] ccs = ccs := rfl
    have h2 : upsertInserts course existingIds now idx [] = [] := rfl
    rw [h1, h2, List.append_nil, List.map_congr_left hid, List.map_id]
  | cons cid rest ih =>
    intro idx ccs hnd
    have hnotin : cid ∉ rest := (List.nodup_cons.mp hnd).1
    have hndr : rest.Nodup := (List.nodup_cons.mp hnd).2
    unfold reorder_upsert
    dsimp only
    by_cases hcid : existingIds.contains cid = true
    · rw [if_pos hcid, ih (idx + 1) _ hndr, List.map_map]
      have hins : upsertInserts course existingIds now idx (cid :: rest) =
          upsertInserts course existingIds now (idx + 1) rest := by
        show (if existingIds.contains cid then _ else _) ++ _ = _
        rw [if_pos hcid, List.nil_append]
      rw [hins]
      congr 1
      apply List.map_congr_left
      intro cc _
      exact upsertUpdate_step_mem course existingIds rest cid idx hnotin hcid cc
    · have hcid' : existingIds.contains cid = false := by simpa using hcid
      rw [if_neg hcid, ih (idx + 1) _ hndr, List.map_append]
      have hins : upsertInserts course existingIds now idx (cid :: rest) =
          ⟨course.id, cid, course.org_id, idx, now, now⟩ ::
            upsertInserts course existingIds now (idx + 1) rest := by
        show (if existingIds.contains cid then _ else _) ++ _ = _
        rw [if_neg hcid, List.singleton_append]
      rw [hins]
      simp only [List.map_cons, List.map_nil,
        upsertUpdate_new_row course existingIds rest (idx + 1) idx cid now hcid']
      rw [List.append_assoc, List.singleton_append]
      congr 1
      apply List.map_congr_left
      intro cc _
      exact upsertUpdate_step_notmem course existingIds rest cid idx hcid' cc

/-- Every inserted row is a link of the course and carries a submitted id. -/
theorem upsertInserts_mem (course : Course) (existingIds : List Nat) (now : String) :
    ∀ (sub : List Nat) (idx : Nat) (cc : CourseChapter),
      cc ∈ upsertInserts course existingIds now idx sub →
      isCourseLink course cc = true ∧ cc.chapter_id ∈ sub := by
  intro sub
  induction sub with
  | nil =>
    intro idx cc h
    simp [upsertInserts] at h
  | cons cid rest ih =>
    intro idx cc h
    have hsplit : cc ∈ (if existingIds.contains cid then ([] : List CourseChapter)
        else [⟨course.id, cid, course.org_id, idx, now, now⟩]) ∨
        cc ∈ upsertInserts course existingIds now (idx + 1) rest :=
      List.mem_append.mp h
    rcases hsplit with h1 | h2
    · by_cases hcid : existingIds.contains cid
      · rw [if_pos hcid] at h1
        cases h1
      · rw [if_neg hcid] at h1
        have hcc : cc = ⟨course.id, cid, course.org_id, idx, now, now⟩ := by
          simpa using h1
        subst hcc
        exact ⟨by simp [isCourseLink], by simp⟩
    · have := ih (idx + 1) cc h2
      exact ⟨this.1, List.mem_cons_of_mem _ this.2⟩

/-- The `(chapter id, order)` pairs of the inserted rows are exactly the
enumerated submitted ids without an existing link. -/
theorem upsertInserts_pairs (course : Course) (existingIds : List Nat) (now : String) :
    ∀ (sub : List Nat) (idx : Nat),
      (upsertInserts course existingIds now idx sub).map (fun cc => (cc.chapter_id, cc.order)) =
        ((sub.enumFrom idx).filter (fun p => !existingIds.contains p.2)).map
          (fun p => (p.2, p.1)) := by
  intro sub
  induction sub with
  | nil => intro idx; rfl
  | cons cid rest ih =>
    intro idx
    have hcons : (cid :: rest).enumFrom idx = (idx, cid) :: rest.enumFrom (idx + 1) := rfl
    rw [hcons]
    by_cases hcid : existingIds.contains cid
    · have hstep : upsertInserts course existingIds now idx (cid :: rest) =
          upsertInserts course existingIds now (idx + 1) rest := by
        show (if existingIds.contains cid then _ else _) ++ _ = _
        rw [if_pos hcid, List.nil_append]
      have hm : cid ∈ existingIds := List.elem_iff.mp hcid
      rw [hstep, ih (idx + 1), List.filter_cons]
      simp [hm]
    · have hstep : upsertInserts course existingIds now idx (cid :: rest) =
          ⟨course.id, cid, course.org_id, idx, now, now⟩ ::
            upsertInserts course existingIds now (idx + 1) rest := by
        show (if existingIds.contains cid then _ else _) ++ _ = _
        rw [if_neg hcid, List.singleton_append]
      have hnm : cid ∉ existingIds := by simpa using hcid
      rw [hstep, List.map_cons, ih (idx + 1), List.filter_cons]
      simp [hnm]

/-- Membership in an enumeration of a duplicate-free list: the pair `(i, c)`
occurs iff `c` occurs and `i` is its index, shifted by the enumeration start. -/
theorem mem_enumFrom_nodup :
    ∀ (l : List Nat) (k i c : Nat), l.Nodup →
      ((i, c) ∈ l.enumFrom k ↔ c ∈ l ∧ k + l.indexOf c = i) := by
  intro l
  induction l with
  | nil => intro k i c _; simp
  | cons a t ih =>
    intro k i c hnd
    have hat : a ∉ t := (List.nodup_cons.mp hnd).1
    have hndt : t.Nodup := (List.nodup_cons.mp hnd).2
    have hcons : (a :: t).enumFrom k = (k, a) :: t.enumFrom (k + 1) := rfl
    rw [hcons]
    constructor
    · intro h
      rcases List.mem_cons.mp h with h1 | h2
      · have hik : i = k ∧ c = a := by simpa [Prod.ext_iff] using h1
        rcases hik with ⟨rfl, rfl⟩
        exact ⟨List.mem_cons_self _ _, by simp [List.indexOf_cons_self]⟩
      · rcases (ih (k + 1) i c hndt).mp h2 with ⟨hmem, hidx⟩
        have hac : a ≠ c := fun he => hat (he ▸ hmem)
        refine ⟨List.mem_cons_of_mem _ hmem, ?_⟩
        rw [List.indexOf_cons_ne t hac]
        omega
    · rintro ⟨hmem, hidx⟩
      rcases List.mem_cons.mp hmem with rfl | hmem'
      · rw [List.indexOf_cons_self] at hidx
        have hik : i = k := by omega
        subst hik
        exact List.mem_cons_self _ _
      · have hac : a ≠ c := fun he => hat (he ▸ hmem')
        rw [List.indexOf_cons_ne t hac] at hidx
        have hsh : (k + 1) + t.indexOf c = i := by omega
        exact List.mem_cons_of_mem _ ((ih (k + 1) i c hndt).mpr ⟨hmem', hsh⟩)

/-- Characterisation of the reconciliation (closed form + deletion filter): rows
of other courses survive untouched, and the `(chapter id, order)` pairs of the
course's rows end up exactly the submitted ids paired with their indices. -/
theorem reorder_closed_spec (course : Course) (sub eIds : List Nat) (now : String)
    (ccs : List CourseChapter)
    (heIds : eIds = (ccs.filter fun cc => isCourseLink course cc).map (fun cc => cc.chapter_id))
    (hsub : sub.Nodup) (hex : eIds.Nodup) :
    (((ccs.map (upsertUpdate course eIds sub 0) ++ upsertInserts course eIds now 0 sub).filter
        (fun cc => !(isCourseLink course cc && eIds.contains cc.chapter_id &&
          !(sub.contains cc.chapter_id)))).filter (fun cc => !(isCourseLink course cc)) =
      ccs.filter (fun cc => !(isCourseLink course cc))) ∧
    ((((ccs.map (upsertUpdate course eIds sub 0) ++ upsertInserts course eIds now 0 sub).filter
        (fun cc => !(isCourseLink course cc && eIds.contains cc.chapter_id &&
          !(sub.contains cc.chapter_id)))).filter (fun cc => isCourseLink course cc)).map
        (fun cc => (cc.chapter_id, cc.order))).Perm
      (sub.enum.map fun p => (p.2, p.1)) := by
  -- abbreviations
  have hmemE : ∀ cc ∈ ccs, isCourseLink course cc = true → cc.chapter_id ∈ eIds := by
    intro cc hcc hC
    rw [heIds]
    exact List.mem_map.mpr ⟨cc, List.mem_filter.mpr ⟨hcc, hC⟩, rfl⟩
  have hofE : ∀ c ∈ eIds, ∃ cc ∈ ccs, isCourseLink course cc = true ∧ cc.chapter_id = c := by
    intro c hc
    rw [heIds] at hc
    rcases List.mem_map.mp hc with ⟨cc, hcc, rfl⟩
    exact ⟨cc, (List.mem_filter.mp hcc).1, (List.mem_filter.mp hcc).2, rfl⟩
  -- the deletion filter keeps every inserted row
  have hB : (upsertInserts course eIds now 0 sub).filter
      (fun cc => !(isCourseLink course cc && eIds.contains cc.chapter_id &&
        !(sub.contains cc.chapter_id))) = upsertInserts course eIds now 0 sub := by
    apply List.filter_eq_self.mpr
    intro cc hcc
    have h := upsertInserts_mem course eIds now sub 0 cc hcc
    simp [h.2]
  rw [List.filter_append, hB]
  constructor
  · -- frame: rows of other courses
    rw [List.filter_append]
    have hInc : (upsertInserts course eIds now 0 sub).filter
        (fun cc => !(isCourseLink course cc)) = [] := by
      apply List.filter_eq_nil_iff.mpr
      intro cc hcc
      simp [(upsertInserts_mem course eIds now sub 0 cc hcc).1]
    rw [hInc, List.append_nil, List.filter_filter]
    have hpoint : ∀ cc ∈ ccs.map (upsertUpdate course eIds sub 0),
        (!(isCourseLink course cc) &&
          !(isCourseLink course cc && eIds.contains cc.chapter_id &&
            !(sub.contains cc.chapter_id))) = (!(isCourseLink course cc)) := by
      intro cc _
      by_cases h : isCourseLink course cc <;> simp [h]
    rw [List.filter_congr hpoint, List.filter_map]
    have hcomp : ∀ cc ∈ ccs,
        ((fun cc => !(isCourseLink course cc)) ∘ upsertUpdate course eIds sub 0) cc =
          (!(isCourseLink course cc)) := by
      intro cc _
      have h := upsertUpdate_fields course eIds sub 0 cc
      simp only [Function.comp_apply, isCourseLink, h.1, h.2.1]
    rw [List.filter_congr hcomp]
    have hid : ∀ cc ∈ ccs.filter (fun cc => !(isCourseLink course cc)),
        upsertUpdate course eIds sub 0 cc = id cc := by
      intro cc hcc
      have h : isCourseLink course cc = false := by
        simpa using (List.mem_filter.mp hcc).2
      rw [upsertUpdate_not_course course eIds sub 0 cc h]
      rfl
    rw [List.map_congr_left hid, List.map_id]
  · -- the course's rows: (chapter id, order) pairs
    have hIC : (upsertInserts course eIds now 0 sub).filter
        (fun cc => isCourseLink course cc) = upsertInserts course eIds now 0 sub := by
      apply List.filter_eq_self.mpr
      intro cc hcc
      exact (upsertInserts_mem course eIds now sub 0 cc hcc).1
    rw [List.filter_append, hIC, List.filter_filter, List.filter_map, List.map_append,
      List.map_map]
    -- the fetched-and-kept rows are the course rows with resubmitted ids
    have hkF : ∀ cc ∈ ccs,
        ((fun cc => isCourseLink course cc &&
            !(isCourseLink course cc && eIds.contains cc.chapter_id &&
              !(sub.contains cc.chapter_id))) ∘ upsertUpdate course eIds sub 0) cc =
          (isCourseLink course cc && sub.contains cc.chapter_id) := by
      intro cc hcc
      have hf := upsertUpdate_fields course eIds sub 0 cc
      have hcl : isCourseLink course (upsertUpdate course eIds sub 0 cc) =
          isCourseLink course cc := by
        simp only [isCourseLink, hf.1, hf.2.1]
      by_cases h : isCourseLink course cc
      · have hm : cc.chapter_id ∈ eIds := hmemE cc hcc h
        by_cases hs : cc.chapter_id ∈ sub <;>
          simp [Function.comp_apply, hcl, hf.2.2, h, hm, hs]
      · simp [Function.comp_apply, hcl, h]
    rw [List.filter_congr hkF]
    -- pairs of the updated rows
    have hpairF : ∀ cc ∈ ccs.filter
        (fun cc => isCourseLink course cc && sub.contains cc.chapter_id),
        ((fun cc => (cc.chapter_id, cc.order)) ∘ upsertUpdate course eIds sub 0) cc =
          (cc.chapter_id, sub.indexOf cc.chapter_id) := by
      intro cc hcc
      have hmem := List.mem_filter.mp hcc
      have hC : isCourseLink course cc = true := by
        have := hmem.2
        simp only [Bool.and_eq_true] at this
        exact this.1
      have hs : sub.contains cc.chapter_id = true := by
        have := hmem.2
        simp only [Bool.and_eq_true] at this
        exact this.2
      have hmP : cc.chapter_id ∈ eIds := hmemE cc hmem.1 hC
      have hsP : cc.chapter_id ∈ sub := List.elem_iff.mp hs
      simp only [Function.comp_apply, upsertUpdate]
      rw [if_pos (by simp [hC, hmP, hsP])]
      simp
    rw [List.map_congr_left hpairF, upsertInserts_pairs course eIds now sub 0]
    -- assemble the permutation
    have htarget : ((sub.enum.filter (fun p => eIds.contains p.2)).map (fun p => (p.2, p.1)) ++
        (sub.enum.filter (fun p => !eIds.contains p.2)).map (fun p => (p.2, p.1))).Perm
        (sub.enum.map fun p => (p.2, p.1)) := by
      rw [← List.map_append]
      exact (List.filter_append_perm _ _).map _
    have henum : sub.enumFrom 0 = sub.enum := rfl
    rw [henum]
    refine List.Perm.trans (List.Perm.append ?_ (List.Perm.refl _)) htarget
    -- fetched-row pairs against the enumerated resubmitted ids with a link
    apply (List.perm_ext_iff_of_nodup ?_ ?_).mpr
    · intro a
      obtain ⟨c, i⟩ := a
      constructor
      · intro h
        rcases List.mem_map.mp h with ⟨cc, hcc, hpair⟩
        have hmem := List.mem_filter.mp hcc
        have hC : isCourseLink course cc = true := by
          have := hmem.2
          simp only [Bool.and_eq_true] at this
          exact this.1
        have hs : cc.chapter_id ∈ sub := by
          have := hmem.2
          simp only [Bool.and_eq_true] at this
          exact List.elem_iff.mp this.2
        have hco : cc.chapter_id = c ∧ sub.indexOf cc.chapter_id = i := by
          simpa [Prod.ext_iff] using hpair
        rcases hco with ⟨rfl, hidx⟩
        apply List.mem_map.mpr
        refine ⟨(i, cc.chapter_id), ?_, rfl⟩
        apply List.mem_filter.mpr
        refine ⟨?_, by simp [hmemE cc hmem.1 hC]⟩
        exact (mem_enumFrom_nodup sub 0 i cc.chapter_id hsub).mpr ⟨hs, by omega⟩
      · intro h
        rcases List.mem_map.mp h with ⟨⟨i', c'⟩, hp, hpair⟩
        have hpc : c' = c ∧ i' = i := by simpa [Prod.ext_iff] using hpair
        rcases hpc with ⟨rfl, rfl⟩
        have hmem := List.mem_filter.mp hp
        have hce : c' ∈ eIds := by simpa using hmem.2
        have henm := (mem_enumFrom_nodup sub 0 i' c' hsub).mp hmem.1
        rcases hofE c' hce with ⟨cc, hccs, hC, hcid⟩
        apply List.mem_map.mpr
        refine ⟨cc, ?_, ?_⟩
        · apply List.mem_filter.mpr
          exact ⟨hccs, by simp [hC, hcid, henm.1]⟩
        · have hidx : sub.indexOf c' = i' := by omega
          simp [hcid, hidx]
    · -- left side has no duplicate pairs
      have hsubl : ((ccs.filter
          (fun cc => isCourseLink course cc && sub.contains cc.chapter_id)).map
            (fun cc => cc.chapter_id)).Sublist eIds := by
        rw [heIds]
        apply List.Sublist.map
        apply List.monotone_filter_right
        intro cc h
        simp only [Bool.and_eq_true] at h
        exact h.1
      have h1 : ((ccs.filter
          (fun cc => isCourseLink course cc && sub.contains cc.chapter_id)).map
            (fun cc => cc.chapter_id)).Nodup := hex.sublist hsubl
      have h2 : (ccs.filter
          (fun cc => isCourseLink course cc && sub.contains cc.chapter_id)).map
            (fun cc => (cc.chapter_id, sub.indexOf cc.chapter_id)) =
          ((ccs.filter
            (fun cc => isCourseLink course cc && sub.contains cc.chapter_id)).map
              (fun cc => cc.chapter_id)).map (fun c => (c, sub.indexOf c)) := by
        rw [List.map_map]
        rfl
      rw [h2]
      exact h1.map (fun a b h => (Prod.ext_iff.mp h).1)
    · -- right side has no duplicate pairs
      have henum_nodup : sub.enum.Nodup := by
        have hfst : (sub.enum.map Prod.fst).Nodup := by
          rw [List.enum_map_fst]
          exact List.nodup_range _
        exact List.Nodup.of_map _ hfst
      have hfil : (sub.enum.filter (fun p => eIds.contains p.2)).Nodup :=
        henum_nodup.filter _
      apply hfil.map
      intro p q h
      obtain ⟨p1, p2⟩ := p
      obtain ⟨q1, q2⟩ := q
      simp only [Prod.mk.injEq] at h ⊢
      exact ⟨h.2, h.1⟩

/-- C6: the reorder operation reconciles the course's chapter order links against
the submitted id list: links of other courses are untouched, and the course's
remaining links carry exactly the submitted chapter ids, each with its list index
as order — resubmitted ids keep their (updated) link, ids with no existing link
get one inserted, and links whose chapter id is absent from the submitted list
are deleted.  For existing links [A→0, B→1, C→2] and submission [C, A] exactly
the links C→0 and A→1 remain (see the witness). -/
theorem C6_reorder_reconciles_links (course : Course) (submitted : List Nat) (now : String)
    (db : DB) (hsub : submitted.Nodup)
    (hex : ((db.course_chapters.filter fun cc => isCourseLink course cc).map
        (fun cc => cc.chapter_id)).Nodup) :
    ((reorder_course_chapters course submitted now db).course_chapters.filter
        (fun cc => !(isCourseLink course cc)) =
      db.course_chapters.filter (fun cc => !(isCourseLink course cc))) ∧
    (((reorder_course_chapters course submitted now db).course_chapters.filter
        (fun cc => isCourseLink course cc)).map (fun cc => (cc.chapter_id, cc.order))).Perm
      (submitted.enum.map fun p => (p.2, p.1)) := by
  have hdb : (reorder_course_chapters course submitted now db).course_chapters =
      (db.course_chapters.map (upsertUpdate course
          ((db.course_chapters.filter fun cc => isCourseLink course cc).map
            (fun cc => cc.chapter_id)) submitted 0) ++
        upsertInserts course
          ((db.course_chapters.filter fun cc => isCourseLink course cc).map
            (fun cc => cc.chapter_id)) now 0 submitted).filter
        (fun cc => !(isCourseLink course cc &&
          ((db.course_chapters.filter fun cc => isCourseLink course cc).map
            (fun cc => cc.chapter_id)).contains cc.chapter_id &&
          !(submitted.contains cc.chapter_id))) := by
    show (reorder_upsert course _ now 0 submitted db.course_chapters).filter _ = _
    rw [reorder_upsert_closed course _ now submitted 0 db.course_chapters hsub]
  rw [hdb]
  exact reorder_closed_spec course submitted _ now db.course_chapters rfl hsub hex

/-- Fixture for the C6 witness: course 7 has links A = 10 → 0, B = 11 → 1,
C = 12 → 2, and another course's link is also present. -/
def C6db : DB :=
  { emptyDB with
    courses := [courseX]
    course_chapters :=
      [⟨7, 10, 1, 0, "", ""⟩, ⟨7, 11, 1, 1, "", ""⟩, ⟨7, 12, 1, 2, "", ""⟩,
        ⟨8, 50, 2, 0, "", ""⟩] }

/-- Witness for C6 at the spec's scenario: submitting [C, A] = [12, 10] leaves
exactly C → 0 and A → 1 (B's link deleted, the other course's link untouched). -/
theorem C6_witness :
    ([12, 10] : List Nat).Nodup ∧
    ((C6db.course_chapters.filter fun cc => isCourseLink courseX cc).map
      (fun cc => cc.chapter_id)).Nodup ∧
    ((reorder_course_chapters courseX [12, 10] "t" C6db).course_chapters.filter
        (fun cc => !(isCourseLink courseX cc)) =
      C6db.course_chapters.filter (fun cc => !(isCourseLink courseX cc))) ∧
    (((reorder_course_chapters courseX [12, 10] "t" C6db).course_chapters.filter
        (fun cc => isCourseLink courseX cc)).map (fun cc => (cc.chapter_id, cc.order))).Perm
      (([12, 10] : List Nat).enum.map fun p => (p.2, p.1)) ∧
    (reorder_course_chapters courseX [12, 10] "t" C6db).course_chapters =
      [⟨7, 10, 1, 1, "", ""⟩, ⟨7, 12, 1, 0, "", ""⟩, ⟨8, 50, 2, 0, "", ""⟩] := by
  have h := C6_reorder_reconciles_links courseX [12, 10] "t" C6db (by decide) (by decide)
  exact ⟨by decide, by decide, h.1, h.2, by decide⟩

end SoftLearn
